import Mathlib

/-!
# Tracing glue of the `shared` package

Shallow embedding of `interceptors.go`, `middlware.go`, `jaegerInit.go` and
`config/config.go`.

Go maps are reference values, so gRPC metadata is modelled as an address into
an explicit heap of map contents (or the nil map).  Calls the shims make on
their collaborators (logger, tracer, span, wrapped handler) are recorded, in
order, in a trace that the wrapped code cannot rewrite.
-/

namespace Shared

/-! ## Go values -/

/-- Result of running a Go call: it returns a value or it panics. -/
inductive Outcome (ρ : Type) where
  | returned (r : ρ)
  | panicked (p : String)
  deriving DecidableEq, Repr

/-- Contents of an allocated Go `map[string][]string`: finitely many distinct
keys, each with its value list. -/
abbrev MDMap := AList (fun _ : String => List String)

/-- A value of type `metadata.MD`: the nil map (`none`) or the address of an
allocated map. -/
abbrev MD := Option Nat

/-- The allocated maps.  Every address below `next` has been handed out. -/
structure Heap where
  cells : Nat → MDMap
  next : Nat

/-- Contents seen when reading through a map value; the nil map reads as empty. -/
def Heap.deref (h : Heap) : MD → MDMap
  | none => ∅
  | some a => h.cells a

/-- Overwrite the map stored at address `a`. -/
def Heap.store (h : Heap) (a : Nat) (m : MDMap) : Heap :=
  { cells := fun b => if b = a then m else h.cells b, next := h.next }

/-- Allocate a new map with contents `m` (Go `make` followed by filling it). -/
def Heap.alloc (h : Heap) (m : MDMap) : Nat × Heap :=
  (h.next, { cells := fun b => if b = h.next then m else h.cells b, next := h.next + 1 })

/-- Go map read `m[key]`: a missing key (and every key of the nil map) reads
as the nil slice. -/
def mapIndex (h : Heap) (m : MD) (key : String) : List String :=
  ((h.deref m).lookup key).getD []

/-! ## `metadataTextMapCarrier` (interceptors.go, lines 55-76) -/

/-- Method `Get` of `metadataTextMapCarrier`. -/
def metadataTextMapCarrier.Get (h : Heap) (m : MD) (key : String) : String :=
  let values := mapIndex h m key
  if values.length = 0 then "" else values.headD ""

/-- Method `Set` of `metadataTextMapCarrier`: `m[key] = []string{value}`.
Assignment to an entry of the nil map panics and changes nothing. -/
def metadataTextMapCarrier.Set (h : Heap) (m : MD) (key value : String) :
    Outcome Unit × Heap :=
  match m with
  | none => (.panicked "assignment to entry in nil map", h)
  | some a => (.returned (), h.store a ((h.cells a).insert key [value]))

/-- Method `Keys` of `metadataTextMapCarrier`.  Go leaves the order of a map
iteration unspecified; the model lists the keys in storage order. -/
def metadataTextMapCarrier.Keys (h : Heap) (m : MD) : List String :=
  (h.deref m).keys

/-! ## `metadataToCarrier` (interceptors.go, lines 101-109) -/

/-- Contents of a `propagation.MapCarrier`, a Go `map[string]string`. -/
abbrev MapCarrier := AList (fun _ : String => String)

/-- Method `Get` of `propagation.MapCarrier`: `c[key]`, the empty string when
the key is missing. -/
def MapCarrierGet (c : MapCarrier) (key : String) : String :=
  (c.lookup key).getD ""

/-- Method `Keys` of `propagation.MapCarrier`. -/
def MapCarrierKeys (c : MapCarrier) : List String :=
  c.keys

/-- One iteration of the loop of `metadataToCarrier`. -/
def metadataToCarrierStep (carrier : MapCarrier) (e : Sigma (fun _ : String => List String)) :
    MapCarrier :=
  if e.2.length > 0 then carrier.insert e.1 (e.2.headD "") else carrier

/-- Function `metadataToCarrier`: a fresh map holding the first value of every
key that has one.  Ranging over the nil map runs no iteration. -/
def metadataToCarrier (h : Heap) (md : MD) : MapCarrier :=
  (h.deref md).entries.foldl metadataToCarrierStep ∅

/-! ## Contexts, spans and the collaborators of the shims -/

/-- A Go `error` value that is not nil. -/
abbrev GoError := String

/-- Value `trace.SpanContext`: identifiers, flags and trace state of a span. -/
structure SpanContext where
  traceID : Nat
  spanID : Nat
  traceFlags : Nat
  traceState : String
  remote : Bool
  deriving DecidableEq, Repr

/-- Method `IsValid`: the trace id and the span id are both non-zero. -/
def SpanContext.IsValid (sc : SpanContext) : Bool :=
  sc.traceID != 0 && sc.spanID != 0

/-- Method `TraceID().String()`: 32 lower-case hexadecimal digits. -/
def SpanContext.TraceIDString (sc : SpanContext) : String :=
  let ds := Nat.toDigits 16 (sc.traceID % 2 ^ 128)
  String.mk (List.replicate (32 - ds.length) '0' ++ ds)

/-- A `trace.Span` value, known to the shims only through its span context. -/
structure Span where
  sc : SpanContext
  deriving DecidableEq, Repr

/-- The span `trace.SpanFromContext` hands out when the context holds none;
its span context is the zero value. -/
def noopSpan : Span := ⟨⟨0, 0, 0, "", false⟩⟩

/-- The value grpc keeps in a context for outgoing metadata (its `rawMD`):
the map given to `NewOutgoingContext`, by reference, and the key-value lists
given to `AppendToOutgoingContext` since, oldest first.  A list of pairs
stands for the flat `[]string` of even length that grpc stores. -/
structure RawMD where
  md : MD
  added : List (List (String × String))
  deriving DecidableEq, Repr

/-- The part of a `context.Context` the shims read or replace.  `outgoing` and
`incoming` are the gRPC metadata attached to the context (`none`: nothing
attached); `rest` stands for everything else the context carries (deadline,
cancellation, other values), which no shim touches. -/
structure Context where
  span : Option Span
  outgoing : Option RawMD
  incoming : Option MD
  rest : Nat
  deriving DecidableEq, Repr

/-- Function `trace.SpanFromContext`: never the nil interface (`none`); the
no-op span when the context holds no span. -/
def SpanFromContext (ctx : Context) : Option Span :=
  some (ctx.span.getD noopSpan)

/-- Function `trace.ContextWithSpan`. -/
def ContextWithSpan (ctx : Context) (span : Span) : Context :=
  { ctx with span := some span }

/-- One iteration of grpc's copying loop `out[strings.ToLower(k)] = copyOf(v)`. -/
def lowerKeysStep (lower : String → String) (out : MDMap)
    (e : Sigma (fun _ : String => List String)) : MDMap :=
  out.insert (lower e.1) e.2

/-- The loop `for k, v := range md { out[strings.ToLower(k)] = copyOf(v) }`
of `FromOutgoingContext` and `FromIncomingContext`, started on an empty map;
`lower` is `strings.ToLower`.  Of keys that differ only in case one value list
survives, the one visited last; Go leaves the order of the visit unspecified,
the model visits in storage order. -/
def lowerKeys (lower : String → String) (m : MDMap) : MDMap :=
  m.entries.foldl (lowerKeysStep lower) ∅

/-- The statement `out[key] = append(out[key], value)` for one appended pair,
with `key` the lower-cased key of the pair. -/
def appendPair (lower : String → String) (out : MDMap) (kv : String × String) : MDMap :=
  out.insert (lower kv.1) ((out.lookup (lower kv.1)).getD [] ++ [kv.2])

/-- The loop of `FromOutgoingContext` over the appended key-value lists. -/
def appendPairs (lower : String → String) (out : MDMap)
    (added : List (List (String × String))) : MDMap :=
  added.foldl (fun acc pairs => pairs.foldl (appendPair lower) acc) out

/-- Contents of the map `FromOutgoingContext` builds from a `rawMD`: the
attached map with every key lower-cased, then the appended pairs. -/
def outgoingContents (lower : String → String) (h : Heap) (raw : RawMD) : MDMap :=
  appendPairs lower (lowerKeys lower (h.deref raw.md)) raw.added

/-- Function `metadata.FromOutgoingContext`: `(nil, false)` when nothing is
attached, otherwise a newly allocated map holding `outgoingContents`. -/
def FromOutgoingContext (lower : String → String) (h : Heap) (ctx : Context) :
    (MD × Bool) × Heap :=
  match ctx.outgoing with
  | none => ((none, false), h)
  | some raw =>
    let (a, h1) := h.alloc (outgoingContents lower h raw)
    ((some a, true), h1)

/-- Function `metadata.FromIncomingContext`: `(nil, false)` when nothing is
attached, otherwise a newly allocated copy with every key lower-cased. -/
def FromIncomingContext (lower : String → String) (h : Heap) (ctx : Context) :
    (MD × Bool) × Heap :=
  match ctx.incoming with
  | none => ((none, false), h)
  | some md =>
    let (a, h1) := h.alloc (lowerKeys lower (h.deref md))
    ((some a, true), h1)

/-- Function `metadata.NewOutgoingContext`: the map is attached by reference
and earlier appended pairs are dropped. -/
def NewOutgoingContext (ctx : Context) (md : MD) : Context :=
  { ctx with outgoing := some ⟨md, []⟩ }

/-- Call `metadata.New(nil)`: a freshly allocated empty map. -/
def metadataNewNil (h : Heap) : MD × Heap :=
  let (a, h1) := h.alloc ∅
  (some a, h1)

/-- Method `MD.Copy`: a freshly allocated map with the same keys and value
lists (a copy of the nil map is an empty, non-nil map). -/
def MDCopy (h : Heap) (md : MD) : MD × Heap :=
  let (a, h1) := h.alloc (h.deref md)
  (some a, h1)

/-- A `propagation.TextMapPropagator` as the shims use it.  `injectSets ctx`
is the sequence of `carrier.Set(key, value)` calls `Inject(ctx, carrier)`
makes; `extract ctx get` is `Extract(ctx, carrier)` for a carrier read through
its `Get` method. -/
structure Propagator where
  injectSets : Context → List (String × String)
  extract : Context → (String → String) → Context

/-- The `Set` calls of an injection, run in order on the carrier
`metadataTextMapCarrier(md)`; a panic stops the sequence. -/
def runSets (h : Heap) (md : MD) : List (String × String) → Outcome Unit × Heap
  | [] => (.returned (), h)
  | (k, v) :: rest =>
    match metadataTextMapCarrier.Set h md k v with
    | (.returned _, h1) => runSets h1 md rest
    | (.panicked p, h1) => (.panicked p, h1)

/-- Call `propagator.Inject(ctx, metadataTextMapCarrier(md))`. -/
def Inject (P : Propagator) (ctx : Context) (h : Heap) (md : MD) : Outcome Unit × Heap :=
  runSets h md (P.injectSets ctx)

/-- What a shim asks of its collaborators, in order of occurrence.  An event
is written by the operation that performs the request and by nothing else:
`log` by a logger call, `spanStart` by `Tracer.Start`, `spanEnd` by
`Tracer.End`, `call` by the call of the wrapped invoker, handler or next HTTP
handler (with the context passed and the contents of the map attached to that
context as outgoing metadata at the moment of the call). -/
inductive Event where
  | log (level msg : String) (fields : List (String × String))
  | spanStart (name : String) (attrs : List (String × String)) (parent : Context) (span : Span)
  | spanEnd (span : Span)
  | call (ctx : Context) (outgoing : Option MDMap)
  deriving DecidableEq

/-- State the collaborators act on: the metadata maps and the state `σ` of
everything else (tracer, exporter, connection, response writer, the wrapped
code). -/
structure World (σ : Type) where
  heap : Heap
  ext : σ

/-- State of a running shim: the world and the events so far.  Collaborators
see and change the world only. -/
structure Exec (σ : Type) where
  world : World σ
  trace : List Event

/-- Result of running a shim: what it returned (or the panic it let through),
the state it left and the events it produced. -/
structure Run (ρ σ : Type) where
  outcome : Outcome ρ
  world : World σ
  trace : List Event

/-- Contents of the map attached to a context as outgoing metadata. -/
def outgoingView (h : Heap) (ctx : Context) : Option MDMap :=
  ctx.outgoing.map (fun raw => h.deref raw.md)

/-- A shim is entered in world `w`, with no event yet. -/
def Exec.start {σ : Type} (w : World σ) : Exec σ :=
  ⟨w, []⟩

/-- The shim returns (or lets a panic through). -/
def Exec.finish {ρ σ : Type} (r : Outcome ρ × Exec σ) : Run ρ σ :=
  ⟨r.1, r.2.world, r.2.trace⟩

/-- The metadata maps become `h`. -/
def Exec.setHeap {σ : Type} (s : Exec σ) (h : Heap) : Exec σ :=
  ⟨{ s.world with heap := h }, s.trace⟩

/-- A call of the zap logger (`logger.Debug`, `logger.Info`). -/
def Exec.log {σ : Type} (s : Exec σ) (level msg : String) (fields : List (String × String)) :
    Exec σ :=
  ⟨s.world, s.trace ++ [Event.log level msg fields]⟩

/-- A `trace.Tracer` with the spans it makes: `newSpan` builds the span of
`Start(ctx, name, opts...)`, `endSpan` is the effect of `span.End()`. -/
structure Tracer (σ : Type) where
  newSpan : Context → String → List (String × String) → World σ → Span × World σ
  endSpan : Span → World σ → World σ

/-- Method `tracer.Start`: the tracer makes the span; the result is the span
and the context that carries it. -/
def Tracer.Start {σ : Type} (tracer : Tracer σ) (ctx : Context) (name : String)
    (attrs : List (String × String)) (s : Exec σ) : (Context × Span) × Exec σ :=
  let (span, w1) := tracer.newSpan ctx name attrs s.world
  ((ContextWithSpan ctx span, span), ⟨w1, s.trace ++ [Event.spanStart name attrs ctx span]⟩)

/-- Method `span.End` of a span made by `tracer`. -/
def Tracer.End {σ : Type} (tracer : Tracer σ) (span : Span) (s : Exec σ) : Exec σ :=
  ⟨tracer.endSpan span s.world, s.trace ++ [Event.spanEnd span]⟩

/-- A deferred call: `deferred` runs when the body has returned and when it has
panicked; the result of the body, or its panic, goes on to the caller. -/
def runDeferred {ρ σ : Type} (deferred : Exec σ → Exec σ) (body : Outcome ρ × Exec σ) :
    Outcome ρ × Exec σ :=
  match body with
  | (.returned v, s) => (.returned v, deferred s)
  | (.panicked p, s) => (.panicked p, deferred s)

/-- A `grpc.UnaryInvoker`; the returned error is `none` for nil. -/
abbrev UnaryInvoker (α σ : Type) :=
  Context → String → α → α → α → List α → World σ → Outcome (Option GoError) × World σ

/-- A `grpc.UnaryHandler`. -/
abbrev UnaryHandler (α σ : Type) :=
  Context → α → World σ → Outcome (α × Option GoError) × World σ

/-- Value `grpc.UnaryServerInfo`. -/
structure UnaryServerInfo (α : Type) where
  Server : α
  FullMethod : String

/-- The call `invoker(ctx, method, req, reply, cc, opts...)`. -/
def callInvoker {α σ : Type} (invoker : UnaryInvoker α σ) (ctx : Context) (method : String)
    (req reply cc : α) (opts : List α) (s : Exec σ) : Outcome (Option GoError) × Exec σ :=
  let (r, w1) := invoker ctx method req reply cc opts s.world
  (r, ⟨w1, s.trace ++ [Event.call ctx (outgoingView s.world.heap ctx)]⟩)

/-- The call `handler(ctx, req)`. -/
def callHandler {α σ : Type} (handler : UnaryHandler α σ) (ctx : Context) (req : α)
    (s : Exec σ) : Outcome (α × Option GoError) × Exec σ :=
  let (r, w1) := handler ctx req s.world
  (r, ⟨w1, s.trace ++ [Event.call ctx (outgoingView s.world.heap ctx)]⟩)

/-! ## `TracingUnaryClientInterceptor` (interceptors.go, lines 13-53) -/

/-- The function returned by `TracingUnaryClientInterceptor(logger)`; `lower`
is `strings.ToLower`, used by the grpc metadata package. -/
def TracingUnaryClientInterceptor {α σ : Type} (lower : String → String) (P : Propagator)
    (ctx : Context) (method : String) (req reply cc : α)
    (invoker : UnaryInvoker α σ) (opts : List α) (w : World σ) : Run (Option GoError) σ :=
  let s0 := Exec.start w
  let span := SpanFromContext ctx
  let inactive : Bool :=
    match span with
    | none => true
    | some s => !s.sc.IsValid
  if inactive then
    let s1 := s0.log "debug" "No active span in context, calling gRPC without propagation" []
    Exec.finish (callInvoker invoker ctx method req reply cc opts s1)
  else
    let ((md0, ok), h0) := FromOutgoingContext lower s0.world.heap ctx
    let (md, h1) := if !ok then metadataNewNil h0 else MDCopy h0 md0
    match Inject P ctx h1 md with
    | (.panicked p, h2) => Exec.finish (Outcome.panicked p, s0.setHeap h2)
    | (.returned _, h2) =>
      let s1 := s0.setHeap h2
      let ctx1 := NewOutgoingContext ctx md
      let s2 := s1.log "debug" "Injected OTEL trace context into gRPC metadata"
        [("method", method)]
      Exec.finish (callInvoker invoker ctx1 method req reply cc opts s2)

/-! ## `TracingUnaryServerInterceptor` (interceptors.go, lines 78-99) -/

/-- The function returned by `TracingUnaryServerInterceptor(logger)`, for the
tracer obtained from `otel.Tracer`; `lower` is `strings.ToLower`, used by the
grpc metadata package.  `defer span.End()` is registered before the handler is
called. -/
def TracingUnaryServerInterceptor {α σ : Type} (lower : String → String) (P : Propagator)
    (tracer : Tracer σ) (ctx : Context) (req : α) (info : UnaryServerInfo α)
    (handler : UnaryHandler α σ) (w : World σ) : Run (α × Option GoError) σ :=
  let s0 := Exec.start w
  let ((md, _), h0) := FromIncomingContext lower s0.world.heap ctx
  let s1 := s0.setHeap h0
  let ctx1 := P.extract ctx (MapCarrierGet (metadataToCarrier s1.world.heap md))
  let s2 := s1.log "info" "gRPC interceptor: context extracted" [("method", info.FullMethod)]
  let ((ctx2, span), s3) := tracer.Start ctx1 info.FullMethod [] s2
  Exec.finish (runDeferred (tracer.End span) (callHandler handler ctx2 req s3))

/-! ## `OTELHTTPMiddleware` (middlware.go) -/

/-- The part of an `http.Request` the middleware reads: method, `URL.String()`,
the header as read through `propagation.HeaderCarrier(r.Header).Get`, and the
request context. -/
structure Request where
  Method : String
  URL : String
  headerGet : String → String
  ctx : Context

/-- Method `r.WithContext`. -/
def Request.WithContext (r : Request) (ctx : Context) : Request :=
  { r with ctx := ctx }

/-- Method `ServeHTTP` of an `http.Handler`; the response writer belongs to
the state `σ`. -/
abbrev HTTPHandler (σ : Type) := Request → World σ → Outcome Unit × World σ

/-- The call `next.ServeHTTP(w, r)`. -/
def serveHTTP {σ : Type} (next : HTTPHandler σ) (r : Request) (s : Exec σ) :
    Outcome Unit × Exec σ :=
  let (res, w1) := next r s.world
  (res, ⟨w1, s.trace ++ [Event.call r.ctx (outgoingView s.world.heap r.ctx)]⟩)

/-- The handler returned by `OTELHTTPMiddleware(tracer, logger, next)`.  The
deferred function ends the span, then logs. -/
def OTELHTTPMiddleware {σ : Type} (P : Propagator) (tracer : Tracer σ)
    (next : HTTPHandler σ) (r : Request) (w : World σ) : Run Unit σ :=
  let s0 := Exec.start w
  let ctx0 := P.extract r.ctx r.headerGet
  let ((ctx, span), s1) := tracer.Start ctx0 "http.request"
    [("http.method", r.Method), ("http.url", r.URL)] s0
  let deferred : Exec σ → Exec σ := fun s =>
    (tracer.End span s).log "info" "finished HTTP request span"
      [("method", r.Method), ("url", r.URL)]
  let traceID := span.sc.TraceIDString
  let s2 := s1.log "info" "HTTP request started"
    [("method", r.Method), ("url", r.URL), ("trace_id", traceID)]
  Exec.finish (runDeferred deferred (serveHTTP next (r.WithContext ctx) s2))

/-! ## `JaegerConfig` and `InitJaegerOTEL` (config/config.go, jaegerInit.go) -/

/-- A Go `float64` as far as comparisons go: not-a-number, an infinity, or a
finite value (kept as the rational it denotes). -/
inductive Float64 where
  | nan
  | negInf
  | posInf
  | finite (q : ℚ)
  deriving DecidableEq

/-- Go `x >= y` on `float64`: false as soon as one side is not a number. -/
def Float64.ge : Float64 → Float64 → Bool
  | .nan, _ => false
  | _, .nan => false
  | .posInf, _ => true
  | _, .negInf => true
  | .negInf, _ => false
  | _, .posInf => false
  | .finite a, .finite b => decide (b ≤ a)

/-- Struct `JaegerConfig`. -/
structure JaegerConfig where
  ServiceName : String
  SamplerType : String
  SamplerParam : Float64
  AgentHost : String
  AgentPort : String
  LogSpans : Bool

/-- The two samplers `InitJaegerOTEL` chooses between. -/
inductive Sampler where
  | AlwaysSample
  | NeverSample
  deriving DecidableEq, Repr

/-- The options a `sdktrace.TracerProvider` is built with. -/
structure TracerProvider (X R : Type) where
  exporter : X
  maxExportBatchSize : Nat
  batchTimeoutSeconds : Nat
  sampler : Sampler
  resource : R

/-- The two SDK constructors that can fail: `jaeger.New` for an agent
endpoint (host, port) and `sdkresource.New` for a list of attributes. -/
structure SDK (X R : Type) where
  jaegerNew : String → String → Except GoError X
  resourceNew : List (String × String) → Except GoError R

/-- What `InitJaegerOTEL` returns and leaves behind: the provider pointer
(`none` for nil), the error (`none` for nil), the globally registered tracer
provider and the log records written. -/
structure InitResult (X R : Type) where
  provider : Option (TracerProvider X R)
  err : Option GoError
  global : Option (TracerProvider X R)
  logs : List Event

/-- Function `InitJaegerOTEL`; `global` is the tracer provider registered
with `otel` when the function is entered. -/
def InitJaegerOTEL {X R : Type} (sdk : SDK X R) (cfg : JaegerConfig)
    (global : Option (TracerProvider X R)) : InitResult X R :=
  let l1 := Event.log "info" "Initializing OpenTelemetry Jaeger exporter (via Agent UDP)"
    [("agent_host", cfg.AgentHost), ("agent_port", cfg.AgentPort),
     ("service_name", cfg.ServiceName)]
  match sdk.jaegerNew cfg.AgentHost cfg.AgentPort with
  | .error err =>
    ⟨none, some err, global, [l1, Event.log "error" "Failed to create Jaeger exporter" [("error", err)]]⟩
  | .ok exporter =>
    let sampler : Sampler :=
      if cfg.SamplerType == "const" && cfg.SamplerParam.ge (.finite 1) then
        Sampler.AlwaysSample
      else
        Sampler.NeverSample
    match sdk.resourceNew [("service.name", cfg.ServiceName)] with
    | .error err =>
      ⟨none, some err, global, [l1, Event.log "error" "Failed to create OTEL resource" [("error", err)]]⟩
    | .ok res =>
      let tp : TracerProvider X R := ⟨exporter, 50, 1, sampler, res⟩
      ⟨some tp, none, some tp, [l1, Event.log "info" "OpenTelemetry Jaeger TracerProvider initialized" []]⟩

/-! ## Reading a trace, and values used in examples -/

/-- Names and spans of the `spanStart` events of a trace, in order. -/
def spansStarted : List Event → List (String × Span)
  | [] => []
  | Event.spanStart name _ _ span :: t => (name, span) :: spansStarted t
  | _ :: t => spansStarted t

/-- Spans of the `spanEnd` events of a trace, in order. -/
def spansEnded : List Event → List Span
  | [] => []
  | Event.spanEnd span :: t => span :: spansEnded t
  | _ :: t => spansEnded t

/-- Contexts and outgoing metadata of the `call` events of a trace, in order. -/
def calls : List Event → List (Context × Option MDMap)
  | [] => []
  | Event.call ctx out :: t => (ctx, out) :: calls t
  | _ :: t => calls t

/-- Map contents after the assignments `m[k] = []string{v}` for the pairs of
`sets`, in order. -/
def applySets (m : MDMap) (sets : List (String × String)) : MDMap :=
  sets.foldl (fun acc kv => acc.insert kv.1 [kv.2]) m

/-- Outgoing metadata the wrapped code was called with, one entry a call. -/
def seenByCallee {ρ σ : Type} (r : Run ρ σ) : List (Option MDMap) :=
  (calls r.trace).map Prod.snd

/-- Contents the client interceptor starts its own map from when it
propagates: what `FromOutgoingContext` reports for the context, or nothing
when no metadata is attached (`metadata.New(nil)`). -/
def callerContents (lower : String → String) (h : Heap) (ctx : Context) : MDMap :=
  match ctx.outgoing with
  | none => ∅
  | some raw => outgoingContents lower h raw

/-- Address of the map the client interceptor injects into when it propagates:
the first free one, or the second when `FromOutgoingContext` has taken the
first for its copy. -/
def propagatedAddress (h : Heap) (ctx : Context) : Nat :=
  match ctx.outgoing with
  | none => h.next
  | some _ => h.next + 1

/-- The metadata maps when the invoker is called in the propagating branch:
the maps allocated on the way, the last of them with the propagator's
assignments applied, added to `h`. -/
def propagatedHeap (lower : String → String) (P : Propagator) (h : Heap) (ctx : Context) :
    Heap :=
  match ctx.outgoing with
  | none => (h.alloc (applySets ∅ (P.injectSets ctx))).2
  | some raw =>
    ((h.alloc (outgoingContents lower h raw)).2.alloc
      (applySets (outgoingContents lower h raw) (P.injectSets ctx))).2

/-- The world in which the server interceptor asks the tracer for a span: the
maps `FromIncomingContext` has allocated added to `w`. -/
def incomingWorld {σ : Type} (lower : String → String) (ctx : Context) (w : World σ) : World σ :=
  ⟨(FromIncomingContext lower w.heap ctx).2, w.ext⟩

/-- The context the server interceptor hands to the tracer as parent: the
propagator's extraction from the carrier built over the incoming metadata. -/
def extractedContext {σ : Type} (lower : String → String) (P : Propagator) (ctx : Context)
    (w : World σ) : Context :=
  P.extract ctx (MapCarrierGet (metadataToCarrier (FromIncomingContext lower w.heap ctx).2
    (FromIncomingContext lower w.heap ctx).1.1))

/-- A heap in which nothing has been allocated. -/
def emptyHeap : Heap := ⟨fun _ => ∅, 0⟩

/-- Lower-casing of the letters A to Z, on which `strings.ToLower` agrees. -/
def asciiLower (s : String) : String :=
  String.mk (s.data.map Char.toLower)

/-- A valid span context, the one of the W3C trace-context examples. -/
def exampleSpanContext : SpanContext :=
  ⟨0x4bf92f3577b34da6a3ce929d0e0e4736, 0x00f067aa0ba902b7, 1, "", false⟩

/-- A context with an active valid span whose outgoing metadata is the map at
address 0. -/
def exampleContext : Context :=
  ⟨some ⟨exampleSpanContext⟩, some ⟨some 0, []⟩, none, 0⟩

/-- A context with the same outgoing metadata and no span. -/
def exampleContextNoSpan : Context :=
  ⟨none, some ⟨some 0, []⟩, none, 0⟩

/-- A world whose only map, at address 0, holds the header `authorization`. -/
def exampleWorld : World Unit :=
  ⟨⟨fun a => if a = 0 then (∅ : MDMap).insert "authorization" ["token"] else ∅, 1⟩, ()⟩

/-- A propagator that writes the single header `traceparent` for a context
with a span and reads nothing back. -/
def examplePropagator : Propagator :=
  { injectSets := fun ctx =>
      match ctx.span with
      | some s => [("traceparent", s.sc.TraceIDString)]
      | none => []
    extract := fun ctx _ => ctx }

/-- A tracer whose spans all carry `exampleSpanContext`. -/
def exampleTracer : Tracer Unit :=
  { newSpan := fun _ _ _ w => (⟨exampleSpanContext⟩, w)
    endSpan := fun _ w => w }

/-- What a tracer has been asked to do. -/
inductive TracerCall where
  | start (name : String) (attrs : List (String × String)) (parent : Context)
  | finish (span : Span)
  deriving DecidableEq

/-- A tracer that keeps, as its state, the list of what it has been asked to
do, oldest first. -/
def recordingTracer : Tracer (List TracerCall) :=
  { newSpan := fun parent name attrs w =>
      (⟨exampleSpanContext⟩, { w with ext := w.ext ++ [TracerCall.start name attrs parent] })
    endSpan := fun span w => { w with ext := w.ext ++ [TracerCall.finish span] } }

/-- A world of the recording tracer in which nothing has happened yet. -/
def recordingWorld : World (List TracerCall) :=
  ⟨emptyHeap, []⟩

/-- A gRPC handler that fails with the error "not found". -/
def failingHandler : UnaryHandler Nat (List TracerCall) :=
  fun _ _ w => (Outcome.returned (0, some "not found"), w)

/-- An HTTP handler that panics. -/
def panickingNext : HTTPHandler (List TracerCall) :=
  fun _ w => (Outcome.panicked "boom", w)

/-- An HTTP handler that returns at once, in a world of the recording tracer. -/
def quietNext : HTTPHandler (List TracerCall) :=
  fun _ w => (Outcome.returned (), w)

/-- An invoker that fails with the error "unavailable" and leaves the state
as it is. -/
def exampleInvoker : UnaryInvoker Nat Unit :=
  fun _ _ _ _ _ _ w => (Outcome.returned (some "unavailable"), w)

/-- An HTTP handler that returns at once. -/
def exampleNext : HTTPHandler Unit :=
  fun _ w => (Outcome.returned (), w)

/-- A request for the route `/users`. -/
def exampleRequestUsers : Request :=
  ⟨"GET", "/users", fun _ => "", exampleContextNoSpan⟩

/-- A request for the route `/orders/42`. -/
def exampleRequestOrders : Request :=
  ⟨"POST", "/orders/42", fun _ => "", exampleContextNoSpan⟩

/-- An SDK whose two constructors succeed. -/
def exampleSDK : SDK String String :=
  { jaegerNew := fun host port => Except.ok (host ++ ":" ++ port)
    resourceNew := fun _ => Except.ok "resource" }

/-- An SDK whose exporter cannot be created. -/
def failingSDK : SDK String String :=
  { jaegerNew := fun _ _ => Except.error "no such host"
    resourceNew := fun _ => Except.ok "resource" }

/-- A configuration asking for the constant sampler with parameter 1. -/
def exampleConfig : JaegerConfig :=
  ⟨"orders", "const", Float64.finite 1, "localhost", "6831", false⟩

end Shared

namespace Shared

/-! ## Carrier adapters -/

theorem deref_store_same (h : Heap) (a : Nat) (m : MDMap) :
    (h.store a m).deref (some a) = m := by
  simp [Heap.store, Heap.deref]

theorem foldl_step_lookup (l : List (Sigma fun _ : String => List String))
    (hl : l.NodupKeys) (c : MapCarrier) (k : String) :
    (l.foldl metadataToCarrierStep c).lookup k =
      match l.dlookup k with
      | some (x :: _) => some x
      | _ => c.lookup k := by
  induction l generalizing c with
  | nil => simp
  | cons e l ih =>
    obtain ⟨ek, ev⟩ := e
    rw [List.nodupKeys_cons] at hl
    rw [List.foldl_cons, ih hl.2]
    by_cases hk : k = ek
    · subst hk
      have hnone : l.dlookup k = none := List.dlookup_eq_none.mpr hl.1
      rw [hnone, List.dlookup_cons_eq]
      cases ev with
      | nil => simp [metadataToCarrierStep]
      | cons x xs => simp [metadataToCarrierStep, AList.lookup_insert]
    · rw [List.dlookup_cons_ne _ _ hk]
      have hc : (metadataToCarrierStep c ⟨ek, ev⟩).lookup k = c.lookup k := by
        unfold metadataToCarrierStep
        split
        · exact AList.lookup_insert_ne hk
        · rfl
      rw [hc]

theorem metadataToCarrier_get (h : Heap) (m : MD) (k : String) :
    MapCarrierGet (metadataToCarrier h m) k =
      match (h.deref m).lookup k with
      | some (x :: _) => x
      | _ => "" := by
  unfold MapCarrierGet metadataToCarrier
  rw [foldl_step_lookup _ (h.deref m).nodupKeys]
  show Option.getD (match List.dlookup k (h.deref m).entries with
      | some (x :: _) => some x
      | _ => AList.lookup k (∅ : MapCarrier)) "" = _
  unfold AList.lookup
  cases hlk : List.dlookup k (h.deref m).entries with
  | none => simp
  | some vs => cases vs <;> simp

theorem textMapCarrier_get (h : Heap) (m : MD) (k : String) :
    metadataTextMapCarrier.Get h m k =
      match (h.deref m).lookup k with
      | some (x :: _) => x
      | _ => "" := by
  unfold metadataTextMapCarrier.Get mapIndex
  cases hlk : (h.deref m).lookup k with
  | none => simp
  | some vs => cases vs <;> simp

/-- C7: both gRPC carrier adapters return the first value of a key that has
values and the empty string for a key that is missing or has an empty value
list, so they agree on every key; on the nil metadata and on an empty one, get
returns the empty string for every key and keys() is empty. -/
theorem carrier_adapters_first_value_and_empty (h : Heap) (m : MD) (k : String) :
    (∀ x xs, (h.deref m).lookup k = some (x :: xs) →
      metadataTextMapCarrier.Get h m k = x ∧ MapCarrierGet (metadataToCarrier h m) k = x) ∧
    ((h.deref m).lookup k = none ∨ (h.deref m).lookup k = some [] →
      metadataTextMapCarrier.Get h m k = "" ∧ MapCarrierGet (metadataToCarrier h m) k = "") ∧
    metadataTextMapCarrier.Get h m k = MapCarrierGet (metadataToCarrier h m) k ∧
    (m = none ∨ h.deref m = ∅ →
      metadataTextMapCarrier.Get h m k = "" ∧ metadataTextMapCarrier.Keys h m = [] ∧
      MapCarrierGet (metadataToCarrier h m) k = "" ∧
      MapCarrierKeys (metadataToCarrier h m) = []) := by
  have hempty : m = none ∨ h.deref m = ∅ → h.deref m = ∅ := by
    rintro (rfl | he)
    · rfl
    · exact he
  refine ⟨?_, ?_, ?_, ?_⟩
  · intro x xs hx
    rw [textMapCarrier_get, metadataToCarrier_get, hx]
    exact ⟨rfl, rfl⟩
  · rintro (hx | hx) <;> rw [textMapCarrier_get, metadataToCarrier_get, hx] <;> exact ⟨rfl, rfl⟩
  · rw [textMapCarrier_get, metadataToCarrier_get]
  · intro hm
    have he := hempty hm
    refine ⟨?_, ?_, ?_, ?_⟩
    · rw [textMapCarrier_get, he]; rfl
    · unfold metadataTextMapCarrier.Keys; rw [he]; rfl
    · rw [metadataToCarrier_get, he]; rfl
    · unfold MapCarrierKeys metadataToCarrier; rw [he]; rfl

/-- Witness for C7: a key holding the two values "a" and "b" reads as "a"
through both adapters. -/
theorem carrier_adapters_first_value_witness :
    metadataTextMapCarrier.Get (emptyHeap.store 0 ((∅ : MDMap).insert "k" ["a", "b"]))
        (some 0) "k" = "a" ∧
      MapCarrierGet (metadataToCarrier
        (emptyHeap.store 0 ((∅ : MDMap).insert "k" ["a", "b"])) (some 0)) "k" = "a" :=
  (carrier_adapters_first_value_and_empty
    (emptyHeap.store 0 ((∅ : MDMap).insert "k" ["a", "b"])) (some 0) "k").1 "a" ["b"]
    (by rw [deref_store_same]; exact AList.lookup_insert _)

/-- C6, as the code has it: on every metadata that is not the nil map, Set
returns normally and a following Get of the same key returns the value set,
whatever the key held before. -/
theorem set_then_get_on_allocated_metadata (h : Heap) (m : MD) (k v : String)
    (hm : m ≠ none) :
    (metadataTextMapCarrier.Set h m k v).1 = Outcome.returned () ∧
      metadataTextMapCarrier.Get (metadataTextMapCarrier.Set h m k v).2 m k = v := by
  cases m with
  | none => exact absurd rfl hm
  | some a =>
    refine ⟨rfl, ?_⟩
    rw [textMapCarrier_get]
    show (match ((h.store a ((h.cells a).insert k [v])).deref (some a)).lookup k with
      | some (x :: _) => x
      | _ => "") = v
    rw [deref_store_same, AList.lookup_insert]

/-- Witness for C6: a key that holds the two values "old1" and "old2" reads as
"new" after Set. -/
theorem set_then_get_witness :
    (some 0 : MD) ≠ none ∧
      metadataTextMapCarrier.Get
        (metadataTextMapCarrier.Set
          (emptyHeap.store 0 ((∅ : MDMap).insert "k" ["old1", "old2"])) (some 0) "k" "new").2
        (some 0) "k" = "new" :=
  ⟨by decide,
   (set_then_get_on_allocated_metadata
      (emptyHeap.store 0 ((∅ : MDMap).insert "k" ["old1", "old2"])) (some 0) "k" "new"
      (by decide)).2⟩

/-- Counterexample to C6 as stated: on the nil metadata, Set panics and a
following Get of the key returns the empty string, not the value. -/
theorem set_on_nil_metadata_panics :
    (metadataTextMapCarrier.Set emptyHeap none "traceparent" "v").1 =
        Outcome.panicked "assignment to entry in nil map" ∧
      metadataTextMapCarrier.Get
        (metadataTextMapCarrier.Set emptyHeap none "traceparent" "v").2 none "traceparent" ≠ "v" := by
  refine ⟨rfl, ?_⟩
  rw [textMapCarrier_get]
  decide

/-! ## Heap and injection lemmas -/

theorem heap_eq {h1 h2 : Heap} (hc : ∀ b, h1.cells b = h2.cells b) (hn : h1.next = h2.next) :
    h1 = h2 := by
  cases h1; cases h2
  simp only [Heap.mk.injEq]
  exact ⟨funext hc, hn⟩

theorem store_store (h : Heap) (a : Nat) (x y : MDMap) :
    (h.store a x).store a y = h.store a y := by
  apply heap_eq
  · intro b
    by_cases hb : b = a <;> simp [Heap.store, hb]
  · rfl

theorem store_self (h : Heap) (a : Nat) : h.store a (h.cells a) = h := by
  apply heap_eq
  · intro b
    by_cases hb : b = a <;> simp [Heap.store, hb]
  · rfl

theorem alloc_store (h : Heap) (x y : MDMap) :
    (h.alloc x).2.store h.next y = (h.alloc y).2 := by
  apply heap_eq
  · intro b
    by_cases hb : b = h.next <;> simp [Heap.store, Heap.alloc, hb]
  · rfl

theorem alloc_fst (h : Heap) (m : MDMap) : (h.alloc m).1 = h.next := rfl

theorem alloc_next (h : Heap) (m : MDMap) : (h.alloc m).2.next = h.next + 1 := rfl

theorem alloc_cells_next (h : Heap) (m : MDMap) : (h.alloc m).2.cells h.next = m := by
  simp [Heap.alloc]

theorem alloc_cells_below (h : Heap) (m : MDMap) (a : Nat) (ha : a < h.next) :
    (h.alloc m).2.cells a = h.cells a := by
  simp [Heap.alloc, Nat.ne_of_lt ha]

theorem runSets_allocated (h : Heap) (a : Nat) (sets : List (String × String)) :
    runSets h (some a) sets = (Outcome.returned (), h.store a (applySets (h.cells a) sets)) := by
  induction sets generalizing h with
  | nil => simp [runSets, applySets, store_self]
  | cons kv rest ih =>
    obtain ⟨k, v⟩ := kv
    simp only [runSets, metadataTextMapCarrier.Set]
    rw [ih, store_store]
    simp [Heap.store, applySets]

theorem inject_into_fresh (P : Propagator) (ctx : Context) (h : Heap) (m : MDMap) :
    Inject P ctx (h.alloc m).2 (some h.next) =
      (Outcome.returned (), (h.alloc (applySets m (P.injectSets ctx))).2) := by
  unfold Inject
  rw [runSets_allocated]
  have hcell : (h.alloc m).2.cells h.next = m := by simp [Heap.alloc]
  rw [hcell, alloc_store]

theorem client_inactive {α σ : Type} (lower : String → String) (P : Propagator) (ctx : Context)
    (method : String) (req reply cc : α) (invoker : UnaryInvoker α σ) (opts : List α)
    (w : World σ) (hs : ∀ s, ctx.span = some s → s.sc.IsValid = false) :
    TracingUnaryClientInterceptor lower P ctx method req reply cc invoker opts w =
      ⟨(invoker ctx method req reply cc opts w).1, (invoker ctx method req reply cc opts w).2,
       [Event.log "debug" "No active span in context, calling gRPC without propagation" [],
        Event.call ctx (outgoingView w.heap ctx)]⟩ := by
  have hinv : (ctx.span.getD noopSpan).sc.IsValid = false := by
    cases hsp : ctx.span with
    | none => rfl
    | some s => exact hs s hsp
  simp [TracingUnaryClientInterceptor, SpanFromContext, hinv, Exec.start, Exec.log, Exec.finish,
    callInvoker]

theorem client_active {α σ : Type} (lower : String → String) (P : Propagator) (ctx : Context)
    (method : String) (req reply cc : α) (invoker : UnaryInvoker α σ) (opts : List α)
    (w : World σ) (hv : ∃ s, ctx.span = some s ∧ s.sc.IsValid = true) :
    TracingUnaryClientInterceptor lower P ctx method req reply cc invoker opts w =
      ⟨(invoker (NewOutgoingContext ctx (some (propagatedAddress w.heap ctx))) method req reply
          cc opts ⟨propagatedHeap lower P w.heap ctx, w.ext⟩).1,
       (invoker (NewOutgoingContext ctx (some (propagatedAddress w.heap ctx))) method req reply
          cc opts ⟨propagatedHeap lower P w.heap ctx, w.ext⟩).2,
       [Event.log "debug" "Injected OTEL trace context into gRPC metadata" [("method", method)],
        Event.call (NewOutgoingContext ctx (some (propagatedAddress w.heap ctx)))
          (some (applySets (callerContents lower w.heap ctx) (P.injectSets ctx)))]⟩ := by
  obtain ⟨s, hsp, hval⟩ := hv
  have hinv : (ctx.span.getD noopSpan).sc.IsValid = true := by rw [hsp]; exact hval
  cases hout : ctx.outgoing with
  | none =>
    have hinj := inject_into_fresh P ctx w.heap ∅
    simp [TracingUnaryClientInterceptor, SpanFromContext, hinv, FromOutgoingContext, hout,
      metadataNewNil, Exec.start, Exec.log, Exec.finish, Exec.setHeap, callInvoker,
      propagatedAddress, propagatedHeap, callerContents, alloc_fst, hinj, outgoingView,
      NewOutgoingContext, Heap.deref, alloc_cells_next]
  | some raw =>
    have hinj := inject_into_fresh P ctx (w.heap.alloc (outgoingContents lower w.heap raw)).2
      (outgoingContents lower w.heap raw)
    rw [alloc_next] at hinj
    simp [TracingUnaryClientInterceptor, SpanFromContext, hinv, FromOutgoingContext, hout,
      MDCopy, Exec.start, Exec.log, Exec.finish, Exec.setHeap, callInvoker,
      propagatedAddress, propagatedHeap, callerContents, alloc_fst, alloc_next, hinj,
      outgoingView, NewOutgoingContext, Heap.deref, alloc_cells_next]
    exact alloc_cells_next (w.heap.alloc (outgoingContents lower w.heap raw)).2 _

/-! ## What `FromOutgoingContext` keeps of the attached map -/

theorem outgoingView_below {h1 h2 : Heap} {n : Nat} (ctx : Context)
    (hwf : ∀ raw a, ctx.outgoing = some raw → raw.md = some a → a < n)
    (hc : ∀ a, a < n → h1.cells a = h2.cells a) :
    outgoingView h1 ctx = outgoingView h2 ctx := by
  unfold outgoingView
  cases hout : ctx.outgoing with
  | none => rfl
  | some raw =>
    cases hmd : raw.md with
    | none => simp [hmd, Heap.deref]
    | some a => simp [hmd, Heap.deref, hc a (hwf raw a hout hmd)]

theorem callerContents_below {h1 h2 : Heap} {n : Nat} (lower : String → String) (ctx : Context)
    (hwf : ∀ raw a, ctx.outgoing = some raw → raw.md = some a → a < n)
    (hc : ∀ a, a < n → h1.cells a = h2.cells a) :
    callerContents lower h1 ctx = callerContents lower h2 ctx := by
  unfold callerContents
  cases hout : ctx.outgoing with
  | none => rfl
  | some raw =>
    cases hmd : raw.md with
    | none => simp [outgoingContents, hmd, Heap.deref]
    | some a => simp [outgoingContents, hmd, Heap.deref, hc a (hwf raw a hout hmd)]

theorem propagatedHeap_below (lower : String → String) (P : Propagator) (h : Heap)
    (ctx : Context) (a : Nat) (ha : a < h.next) :
    (propagatedHeap lower P h ctx).cells a = h.cells a := by
  unfold propagatedHeap
  cases ctx.outgoing with
  | none => exact alloc_cells_below h _ a ha
  | some raw =>
    show ((h.alloc _).2.alloc _).2.cells a = h.cells a
    rw [alloc_cells_below _ _ a (by rw [alloc_next]; exact Nat.lt_succ_of_lt ha),
      alloc_cells_below h _ a ha]

theorem outgoingView_propagated (lower : String → String) (P : Propagator) (h : Heap)
    (ctx : Context) :
    outgoingView (propagatedHeap lower P h ctx)
        (NewOutgoingContext ctx (some (propagatedAddress h ctx))) =
      some (applySets (callerContents lower h ctx) (P.injectSets ctx)) := by
  unfold propagatedHeap propagatedAddress callerContents
  cases ctx.outgoing with
  | none => simp [outgoingView, NewOutgoingContext, Heap.deref, alloc_cells_next]
  | some raw =>
    simp only [outgoingView, NewOutgoingContext, Heap.deref, Option.map_some']
    rw [← alloc_next h (outgoingContents lower h raw), alloc_cells_next]

theorem propagatedAddress_fresh (h : Heap) (ctx : Context) :
    h.next ≤ propagatedAddress h ctx := by
  unfold propagatedAddress
  cases ctx.outgoing with
  | none => exact Nat.le_refl _
  | some raw => exact Nat.le_succ _

/-! ## The client interceptor -/

/-- C3: when the context carries no span, or a span whose span context is not
valid, the client interceptor calls the invoker once with the very context it
received, the same method, req, reply, cc and opts, and in the state it
received: the outgoing metadata the invoker sees is the caller's, unchanged. -/
theorem client_without_valid_span_passes_call_through {α σ : Type} (lower : String → String)
    (P : Propagator) (ctx : Context) (method : String) (req reply cc : α)
    (invoker : UnaryInvoker α σ) (opts : List α) (w : World σ)
    (hs : ∀ s, ctx.span = some s → s.sc.IsValid = false) :
    (TracingUnaryClientInterceptor lower P ctx method req reply cc invoker opts w).outcome =
        (invoker ctx method req reply cc opts w).1 ∧
      (TracingUnaryClientInterceptor lower P ctx method req reply cc invoker opts w).world =
        (invoker ctx method req reply cc opts w).2 ∧
      calls (TracingUnaryClientInterceptor lower P ctx method req reply cc invoker opts w).trace =
        [(ctx, outgoingView w.heap ctx)] := by
  rw [client_inactive lower P ctx method req reply cc invoker opts w hs]
  exact ⟨rfl, rfl, rfl⟩

/-- Witness for C3: a context with outgoing metadata and no span. -/
theorem client_without_valid_span_witness :
    (∀ s, exampleContextNoSpan.span = some s → s.sc.IsValid = false) ∧
      calls (TracingUnaryClientInterceptor asciiLower examplePropagator exampleContextNoSpan
        "/svc/Get" 1 2 3 exampleInvoker [] exampleWorld).trace =
        [(exampleContextNoSpan, outgoingView exampleWorld.heap exampleContextNoSpan)] :=
  ⟨fun s hsp => by simp [exampleContextNoSpan] at hsp,
   (client_without_valid_span_passes_call_through asciiLower examplePropagator
      exampleContextNoSpan "/svc/Get" 1 2 3 exampleInvoker [] exampleWorld
      (fun s hsp => by simp [exampleContextNoSpan] at hsp)).2.2⟩

/-- C4: with a valid active span the client interceptor writes only into a
map it has just allocated.  When the invoker is called, the metadata attached
to its context lives at a fresh address, every map that existed before has the
contents it had, and so has the caller's outgoing metadata.  With an invoker
that leaves the maps alone this still holds after the call, and a second call
made from the same base metadata sees the base entries and its own injected
headers only, exactly as if the first call had not been made. -/
theorem client_injection_never_mutates_caller_metadata {α σ : Type} (lower : String → String)
    (P : Propagator) (ctxA ctxB : Context) (methodA methodB : String)
    (reqA replyA ccA reqB replyB ccB : α)
    (invA invB : UnaryInvoker α σ) (optsA optsB : List α) (w : World σ)
    (hA : ∃ s, ctxA.span = some s ∧ s.sc.IsValid = true)
    (hB : ∃ s, ctxB.span = some s ∧ s.sc.IsValid = true)
    (hbase : ctxB.outgoing = ctxA.outgoing)
    (hwf : ∀ raw a, ctxA.outgoing = some raw → raw.md = some a → a < w.heap.next) :
    (∃ ctx1 w1,
      (TracingUnaryClientInterceptor lower P ctxA methodA reqA replyA ccA invA optsA w).world =
          (invA ctx1 methodA reqA replyA ccA optsA w1).2 ∧
        calls (TracingUnaryClientInterceptor lower P ctxA methodA reqA replyA ccA invA optsA
          w).trace = [(ctx1, outgoingView w1.heap ctx1)] ∧
        ctx1.outgoing = some ⟨some (propagatedAddress w.heap ctxA), []⟩ ∧
        w.heap.next ≤ propagatedAddress w.heap ctxA ∧
        (∀ a, a < w.heap.next → w1.heap.cells a = w.heap.cells a) ∧
        outgoingView w1.heap ctxA = outgoingView w.heap ctxA ∧
        w1.ext = w.ext) ∧
      ((∀ c m x y z o v, (invA c m x y z o v).2.heap = v.heap) →
        outgoingView
            (TracingUnaryClientInterceptor lower P ctxA methodA reqA replyA ccA invA optsA
              w).world.heap ctxA = outgoingView w.heap ctxA ∧
          seenByCallee (TracingUnaryClientInterceptor lower P ctxB methodB reqB replyB ccB invB
            optsB
            (TracingUnaryClientInterceptor lower P ctxA methodA reqA replyA ccA invA optsA
              w).world) =
            seenByCallee
              (TracingUnaryClientInterceptor lower P ctxB methodB reqB replyB ccB invB optsB w) ∧
          seenByCallee (TracingUnaryClientInterceptor lower P ctxB methodB reqB replyB ccB invB
            optsB
            (TracingUnaryClientInterceptor lower P ctxA methodA reqA replyA ccA invA optsA
              w).world) =
            [some (applySets (callerContents lower w.heap ctxA) (P.injectSets ctxB))]) := by
  have hbelow : ∀ a, a < w.heap.next →
      (propagatedHeap lower P w.heap ctxA).cells a = w.heap.cells a :=
    fun a ha => propagatedHeap_below lower P w.heap ctxA a ha
  have hviewA : outgoingView (propagatedHeap lower P w.heap ctxA) ctxA =
      outgoingView w.heap ctxA := outgoingView_below ctxA hwf hbelow
  have hwfB : ∀ raw a, ctxB.outgoing = some raw → raw.md = some a → a < w.heap.next :=
    fun raw a hraw ha => hwf raw a (hbase ▸ hraw) ha
  have hcontB : callerContents lower (propagatedHeap lower P w.heap ctxA) ctxB =
      callerContents lower w.heap ctxA := by
    rw [callerContents_below lower ctxB hwfB hbelow]
    simp [callerContents, hbase]
  have hcontB0 : callerContents lower w.heap ctxB = callerContents lower w.heap ctxA := by
    simp [callerContents, hbase]
  refine ⟨⟨NewOutgoingContext ctxA (some (propagatedAddress w.heap ctxA)),
    ⟨propagatedHeap lower P w.heap ctxA, w.ext⟩,
    ?_, ?_, rfl, propagatedAddress_fresh _ _, hbelow, hviewA, rfl⟩, ?_⟩
  · rw [client_active lower P ctxA methodA reqA replyA ccA invA optsA w hA]
  · rw [client_active lower P ctxA methodA reqA replyA ccA invA optsA w hA]
    show [(_, _)] = [(_, _)]
    rw [outgoingView_propagated]
  · intro hinv
    have hheap : (TracingUnaryClientInterceptor lower P ctxA methodA reqA replyA ccA invA optsA
        w).world.heap = propagatedHeap lower P w.heap ctxA := by
      rw [client_active lower P ctxA methodA reqA replyA ccA invA optsA w hA]
      exact hinv _ _ _ _ _ _ _
    have hseen : ∀ v : World σ,
        seenByCallee (TracingUnaryClientInterceptor lower P ctxB methodB reqB replyB ccB invB
          optsB v) =
          [some (applySets (callerContents lower v.heap ctxB) (P.injectSets ctxB))] := by
      intro v
      rw [client_active lower P ctxB methodB reqB replyB ccB invB optsB v hB]
      rfl
    refine ⟨?_, ?_, ?_⟩
    · rw [hheap, hviewA]
    · rw [hseen, hseen, hheap, hcontB, hcontB0]
    · rw [hseen, hheap, hcontB]

/-- Witness for C4: two calls from `exampleContext`, whose outgoing metadata
is the map at address 0 of `exampleWorld`. -/
theorem client_injection_never_mutates_witness :
    outgoingView
        (TracingUnaryClientInterceptor asciiLower examplePropagator exampleContext "/svc/A" 1 2 3
          exampleInvoker [] exampleWorld).world.heap exampleContext =
      outgoingView exampleWorld.heap exampleContext :=
  ((client_injection_never_mutates_caller_metadata asciiLower examplePropagator exampleContext
      exampleContext "/svc/A" "/svc/B" 1 2 3 4 5 6 exampleInvoker exampleInvoker [] []
      exampleWorld ⟨⟨exampleSpanContext⟩, rfl, by decide⟩ ⟨⟨exampleSpanContext⟩, rfl, by decide⟩
      rfl (fun raw a hraw ha => by
        have h0 : a = 0 := by
          simp only [exampleContext, Option.some.injEq] at hraw
          subst hraw
          simp only [Option.some.injEq] at ha
          exact ha.symm
        subst h0
        decide)).2 (fun _ _ _ _ _ _ _ => rfl)).1

theorem runDeferred_eq {ρ σ : Type} (deferred : Exec σ → Exec σ) (body : Outcome ρ × Exec σ) :
    runDeferred deferred body = (body.1, deferred body.2) := by
  obtain ⟨r, s⟩ := body
  cases r <;> rfl

theorem server_shape {α σ : Type} (lower : String → String) (P : Propagator)
    (tracer : Tracer σ) (ctx : Context) (req : α) (info : UnaryServerInfo α)
    (handler : UnaryHandler α σ) (w : World σ) :
    ∃ span w1 res w2,
      tracer.newSpan (extractedContext lower P ctx w) info.FullMethod []
          (incomingWorld lower ctx w) = (span, w1) ∧
        handler (ContextWithSpan (extractedContext lower P ctx w) span) req w1 = (res, w2) ∧
        TracingUnaryServerInterceptor lower P tracer ctx req info handler w =
          ⟨res, tracer.endSpan span w2,
           [Event.log "info" "gRPC interceptor: context extracted"
              [("method", info.FullMethod)],
            Event.spanStart info.FullMethod [] (extractedContext lower P ctx w) span,
            Event.call (ContextWithSpan (extractedContext lower P ctx w) span)
              (outgoingView w1.heap (ContextWithSpan (extractedContext lower P ctx w) span)),
            Event.spanEnd span]⟩ := by
  refine ⟨(tracer.newSpan (extractedContext lower P ctx w) info.FullMethod []
      (incomingWorld lower ctx w)).1,
    (tracer.newSpan (extractedContext lower P ctx w) info.FullMethod []
      (incomingWorld lower ctx w)).2,
    (handler (ContextWithSpan (extractedContext lower P ctx w) (tracer.newSpan
      (extractedContext lower P ctx w) info.FullMethod [] (incomingWorld lower ctx w)).1) req
      (tracer.newSpan (extractedContext lower P ctx w) info.FullMethod []
        (incomingWorld lower ctx w)).2).1,
    (handler (ContextWithSpan (extractedContext lower P ctx w) (tracer.newSpan
      (extractedContext lower P ctx w) info.FullMethod [] (incomingWorld lower ctx w)).1) req
      (tracer.newSpan (extractedContext lower P ctx w) info.FullMethod []
        (incomingWorld lower ctx w)).2).2, rfl, rfl, ?_⟩
  unfold TracingUnaryServerInterceptor
  simp only [runDeferred_eq, Tracer.Start, Tracer.End, callHandler, extractedContext,
    incomingWorld, Exec.start, Exec.log, Exec.finish, Exec.setHeap, List.nil_append,
    List.cons_append]

theorem http_shape {σ : Type} (P : Propagator) (tracer : Tracer σ) (next : HTTPHandler σ)
    (r : Request) (w : World σ) :
    ∃ span w1 res w2,
      tracer.newSpan (P.extract r.ctx r.headerGet) "http.request"
          [("http.method", r.Method), ("http.url", r.URL)] w = (span, w1) ∧
        next (r.WithContext (ContextWithSpan (P.extract r.ctx r.headerGet) span)) w1 =
          (res, w2) ∧
        OTELHTTPMiddleware P tracer next r w =
          ⟨res, tracer.endSpan span w2,
           [Event.spanStart "http.request" [("http.method", r.Method), ("http.url", r.URL)]
              (P.extract r.ctx r.headerGet) span,
            Event.log "info" "HTTP request started"
              [("method", r.Method), ("url", r.URL), ("trace_id", span.sc.TraceIDString)],
            Event.call (ContextWithSpan (P.extract r.ctx r.headerGet) span)
              (outgoingView w1.heap (ContextWithSpan (P.extract r.ctx r.headerGet) span)),
            Event.spanEnd span,
            Event.log "info" "finished HTTP request span"
              [("method", r.Method), ("url", r.URL)]]⟩ := by
  refine ⟨(tracer.newSpan (P.extract r.ctx r.headerGet) "http.request"
      [("http.method", r.Method), ("http.url", r.URL)] w).1,
    (tracer.newSpan (P.extract r.ctx r.headerGet) "http.request"
      [("http.method", r.Method), ("http.url", r.URL)] w).2,
    (next (r.WithContext (ContextWithSpan (P.extract r.ctx r.headerGet)
      (tracer.newSpan (P.extract r.ctx r.headerGet) "http.request"
        [("http.method", r.Method), ("http.url", r.URL)] w).1))
      (tracer.newSpan (P.extract r.ctx r.headerGet) "http.request"
        [("http.method", r.Method), ("http.url", r.URL)] w).2).1,
    (next (r.WithContext (ContextWithSpan (P.extract r.ctx r.headerGet)
      (tracer.newSpan (P.extract r.ctx r.headerGet) "http.request"
        [("http.method", r.Method), ("http.url", r.URL)] w).1))
      (tracer.newSpan (P.extract r.ctx r.headerGet) "http.request"
        [("http.method", r.Method), ("http.url", r.URL)] w).2).2, rfl, rfl, ?_⟩
  unfold OTELHTTPMiddleware
  simp only [runDeferred_eq, Tracer.Start, Tracer.End, serveHTTP, Exec.start, Exec.log,
    Exec.finish, Request.WithContext, List.nil_append, List.cons_append]

/-- C1: each inbound shim asks the tracer for exactly one span, before it
calls the wrapped handler, and ends exactly that span once, after the handler
has returned a value, returned an error or panicked: the state the shim leaves
is the tracer's `End` of that span applied to the state the handler left, the
handler having run in the state the tracer's `Start` left; the shim starts
and ends nothing else. -/
theorem inbound_shims_start_and_end_one_span {α σ : Type} (lower : String → String)
    (P : Propagator) (tracer : Tracer σ) (ctx : Context) (req : α) (info : UnaryServerInfo α)
    (handler : UnaryHandler α σ) (next : HTTPHandler σ) (r : Request) (w : World σ) :
    (∃ span w1 res w2,
      tracer.newSpan (extractedContext lower P ctx w) info.FullMethod []
          (incomingWorld lower ctx w) = (span, w1) ∧
        handler (ContextWithSpan (extractedContext lower P ctx w) span) req w1 = (res, w2) ∧
        (TracingUnaryServerInterceptor lower P tracer ctx req info handler w).outcome = res ∧
        (TracingUnaryServerInterceptor lower P tracer ctx req info handler w).world =
          tracer.endSpan span w2 ∧
        ∃ pre cout post,
          (TracingUnaryServerInterceptor lower P tracer ctx req info handler w).trace =
              pre ++ Event.call (ContextWithSpan (extractedContext lower P ctx w) span) cout ::
                post ∧
            spansStarted pre = [(info.FullMethod, span)] ∧ spansEnded pre = [] ∧
            calls pre = [] ∧
            spansStarted post = [] ∧ spansEnded post = [span] ∧ calls post = [] ∧
            (spansStarted
              (TracingUnaryServerInterceptor lower P tracer ctx req info handler w).trace).length
              = 1 ∧
            spansEnded (TracingUnaryServerInterceptor lower P tracer ctx req info handler w).trace
              = [span]) ∧
      (∃ span w1 res w2,
        tracer.newSpan (P.extract r.ctx r.headerGet) "http.request"
            [("http.method", r.Method), ("http.url", r.URL)] w = (span, w1) ∧
          next (r.WithContext (ContextWithSpan (P.extract r.ctx r.headerGet) span)) w1 =
            (res, w2) ∧
          (OTELHTTPMiddleware P tracer next r w).outcome = res ∧
          (OTELHTTPMiddleware P tracer next r w).world = tracer.endSpan span w2 ∧
          ∃ pre cout post,
            (OTELHTTPMiddleware P tracer next r w).trace =
                pre ++ Event.call (ContextWithSpan (P.extract r.ctx r.headerGet) span) cout ::
                  post ∧
              spansStarted pre = [("http.request", span)] ∧ spansEnded pre = [] ∧
              calls pre = [] ∧
              spansStarted post = [] ∧ spansEnded post = [span] ∧ calls post = [] ∧
              (spansStarted (OTELHTTPMiddleware P tracer next r w).trace).length = 1 ∧
              spansEnded (OTELHTTPMiddleware P tracer next r w).trace = [span]) := by
  constructor
  · obtain ⟨span, w1, res, w2, hnew, hh, hrun⟩ :=
      server_shape lower P tracer ctx req info handler w
    refine ⟨span, w1, res, w2, hnew, hh, ?_⟩
    rw [hrun]
    exact ⟨rfl, rfl,
      [Event.log "info" "gRPC interceptor: context extracted" [("method", info.FullMethod)],
       Event.spanStart info.FullMethod [] (extractedContext lower P ctx w) span],
      outgoingView w1.heap (ContextWithSpan (extractedContext lower P ctx w) span),
      [Event.spanEnd span], rfl, rfl, rfl, rfl, rfl, rfl, rfl, rfl, rfl⟩
  · obtain ⟨span, w1, res, w2, hnew, hh, hrun⟩ := http_shape P tracer next r w
    refine ⟨span, w1, res, w2, hnew, hh, ?_⟩
    rw [hrun]
    exact ⟨rfl, rfl,
      [Event.spanStart "http.request" [("http.method", r.Method), ("http.url", r.URL)]
         (P.extract r.ctx r.headerGet) span,
       Event.log "info" "HTTP request started"
         [("method", r.Method), ("url", r.URL), ("trace_id", span.sc.TraceIDString)]],
      outgoingView w1.heap (ContextWithSpan (P.extract r.ctx r.headerGet) span),
      [Event.spanEnd span,
       Event.log "info" "finished HTTP request span" [("method", r.Method), ("url", r.URL)]],
      rfl, rfl, rfl, rfl, rfl, rfl, rfl, rfl, rfl⟩

/-- Witness for C1: with a tracer that records what it is asked, a gRPC
handler that returns an error and an HTTP handler that panics each leave the
record of one start and one end of the same span. -/
theorem inbound_shims_recording_witness :
    (TracingUnaryServerInterceptor asciiLower examplePropagator recordingTracer
        exampleContextNoSpan 7 ⟨0, "/shop.Orders/Get"⟩ failingHandler recordingWorld).world.ext =
        [TracerCall.start "/shop.Orders/Get" [] exampleContextNoSpan,
         TracerCall.finish ⟨exampleSpanContext⟩] ∧
      (TracingUnaryServerInterceptor asciiLower examplePropagator recordingTracer
        exampleContextNoSpan 7 ⟨0, "/shop.Orders/Get"⟩ failingHandler recordingWorld).outcome =
        Outcome.returned (0, some "not found") ∧
      (OTELHTTPMiddleware examplePropagator recordingTracer panickingNext exampleRequestUsers
        recordingWorld).world.ext =
        [TracerCall.start "http.request" [("http.method", "GET"), ("http.url", "/users")]
           exampleContextNoSpan,
         TracerCall.finish ⟨exampleSpanContext⟩] ∧
      (OTELHTTPMiddleware examplePropagator recordingTracer panickingNext exampleRequestUsers
        recordingWorld).outcome = Outcome.panicked "boom" := by
  obtain ⟨⟨span, w1, res, w2, hnew, hh, hout, hworld, _⟩,
      ⟨span2, w3, res2, w4, hnew2, hh2, hout2, hworld2, _⟩⟩ :=
    inbound_shims_start_and_end_one_span asciiLower examplePropagator recordingTracer
      exampleContextNoSpan 7 ⟨0, "/shop.Orders/Get"⟩ failingHandler panickingNext
      exampleRequestUsers recordingWorld
  rw [hworld, hout, hworld2, hout2]
  injection hnew with hs hw
  injection hh with hr hw2
  injection hnew2 with hs2 hw3
  injection hh2 with hr2 hw4
  subst hs hw hr hw2 hs2 hw3 hr2 hw4
  exact ⟨rfl, rfl, rfl, rfl⟩

/-- C2: the client interceptor calls the invoker exactly once and returns what
that call returned (nil, an error, or its panic), with or without propagation;
the server interceptor calls the handler exactly once and returns the
(response, error) pair that call returned. -/
theorem shims_return_wrapped_outcome {α σ : Type} (lower : String → String) (P : Propagator)
    (tracer : Tracer σ) (ctx : Context) (method : String) (req reply cc : α)
    (invoker : UnaryInvoker α σ) (opts : List α) (info : UnaryServerInfo α)
    (handler : UnaryHandler α σ) (w : World σ) :
    (∃ ctx1 w1,
      (TracingUnaryClientInterceptor lower P ctx method req reply cc invoker opts w).outcome =
          (invoker ctx1 method req reply cc opts w1).1 ∧
        (TracingUnaryClientInterceptor lower P ctx method req reply cc invoker opts w).world =
          (invoker ctx1 method req reply cc opts w1).2 ∧
        calls (TracingUnaryClientInterceptor lower P ctx method req reply cc invoker opts
          w).trace = [(ctx1, outgoingView w1.heap ctx1)]) ∧
      (∃ ctx2 span w2,
        (TracingUnaryServerInterceptor lower P tracer ctx req info handler w).outcome =
            (handler ctx2 req w2).1 ∧
          (TracingUnaryServerInterceptor lower P tracer ctx req info handler w).world =
            tracer.endSpan span (handler ctx2 req w2).2 ∧
          calls (TracingUnaryServerInterceptor lower P tracer ctx req info handler w).trace =
            [(ctx2, outgoingView w2.heap ctx2)]) := by
  constructor
  · by_cases hv : ∃ s, ctx.span = some s ∧ s.sc.IsValid = true
    · refine ⟨NewOutgoingContext ctx (some (propagatedAddress w.heap ctx)),
        ⟨propagatedHeap lower P w.heap ctx, w.ext⟩, ?_⟩
      rw [client_active lower P ctx method req reply cc invoker opts w hv]
      refine ⟨rfl, rfl, ?_⟩
      show [(_, _)] = [(_, _)]
      rw [outgoingView_propagated]
    · have hs : ∀ s, ctx.span = some s → s.sc.IsValid = false := by
        intro s hsp
        cases hval : s.sc.IsValid with
        | false => rfl
        | true => exact absurd ⟨s, hsp, hval⟩ hv
      refine ⟨ctx, w, ?_⟩
      rw [client_inactive lower P ctx method req reply cc invoker opts w hs]
      exact ⟨rfl, rfl, rfl⟩
  · obtain ⟨span, w1, res, w2, hnew, hh, hrun⟩ :=
      server_shape lower P tracer ctx req info handler w
    rw [hrun]
    refine ⟨ContextWithSpan (extractedContext lower P ctx w) span, span, w1, ?_, ?_, rfl⟩
    · rw [hh]
    · rw [hh]

/-- C9, as the code has it: the gRPC server interceptor asks the tracer for a
span named `info.FullMethod`; the HTTP middleware asks it, for every request,
for a span named "http.request" whose attributes `http.method` and `http.url`
hold the method and the URL of the request.  The wrapped handler runs with the
span, and in the state, that this request to the tracer produced. -/
theorem inbound_span_names {α σ : Type} (lower : String → String) (P : Propagator)
    (tracer : Tracer σ) (ctx : Context) (req : α) (info : UnaryServerInfo α)
    (handler : UnaryHandler α σ) (next : HTTPHandler σ) (r : Request) (w : World σ) :
    (∃ span w1,
      tracer.newSpan (extractedContext lower P ctx w) info.FullMethod []
          (incomingWorld lower ctx w) = (span, w1) ∧
        (TracingUnaryServerInterceptor lower P tracer ctx req info handler w).outcome =
          (handler (ContextWithSpan (extractedContext lower P ctx w) span) req w1).1 ∧
        spansStarted (TracingUnaryServerInterceptor lower P tracer ctx req info handler w).trace =
          [(info.FullMethod, span)]) ∧
      (∃ span w1,
        tracer.newSpan (P.extract r.ctx r.headerGet) "http.request"
            [("http.method", r.Method), ("http.url", r.URL)] w = (span, w1) ∧
          (OTELHTTPMiddleware P tracer next r w).outcome =
            (next (r.WithContext (ContextWithSpan (P.extract r.ctx r.headerGet) span)) w1).1 ∧
          spansStarted (OTELHTTPMiddleware P tracer next r w).trace =
            [("http.request", span)] ∧
          Event.spanStart "http.request" [("http.method", r.Method), ("http.url", r.URL)]
            (P.extract r.ctx r.headerGet) span ∈ (OTELHTTPMiddleware P tracer next r w).trace) := by
  constructor
  · obtain ⟨span, w1, res, w2, hnew, hh, hrun⟩ :=
      server_shape lower P tracer ctx req info handler w
    refine ⟨span, w1, hnew, ?_, ?_⟩
    · rw [hrun, hh]
    · rw [hrun]; rfl
  · obtain ⟨span, w1, res, w2, hnew, hh, hrun⟩ := http_shape P tracer next r w
    refine ⟨span, w1, hnew, ?_, ?_, ?_⟩
    · rw [hrun, hh]
    · rw [hrun]; rfl
    · rw [hrun]; exact List.mem_cons_self _ _

/-- Counterexample to C9 as stated: for requests to the routes `/users` and
`/orders/42` the tracer is asked for a span named "http.request" both times;
the routes appear in the attribute `http.url` only. -/
theorem http_span_name_ignores_route :
    exampleRequestUsers.URL ≠ exampleRequestOrders.URL ∧
      (spansStarted (OTELHTTPMiddleware examplePropagator exampleTracer exampleNext
        exampleRequestUsers exampleWorld).trace).map Prod.fst = ["http.request"] ∧
      (spansStarted (OTELHTTPMiddleware examplePropagator exampleTracer exampleNext
        exampleRequestOrders exampleWorld).trace).map Prod.fst = ["http.request"] ∧
      (OTELHTTPMiddleware examplePropagator recordingTracer quietNext exampleRequestUsers
        recordingWorld).world.ext.head? =
        some (TracerCall.start "http.request" [("http.method", "GET"), ("http.url", "/users")]
          exampleContextNoSpan) ∧
      (OTELHTTPMiddleware examplePropagator recordingTracer quietNext exampleRequestOrders
        recordingWorld).world.ext.head? =
        some (TracerCall.start "http.request"
          [("http.method", "POST"), ("http.url", "/orders/42")] exampleContextNoSpan) :=
  ⟨by decide, rfl, rfl, rfl, rfl⟩

/-! ## `InitJaegerOTEL` -/

theorem float64_ge_one (p : Float64) :
    p.ge (Float64.finite 1) = true ↔ p = Float64.posInf ∨ ∃ q, p = Float64.finite q ∧ 1 ≤ q := by
  cases p <;> simp [Float64.ge]

/-- C8: the provider `InitJaegerOTEL` installs samples always exactly when
`SamplerType` is "const" and `SamplerParam` is at least 1.0 (a finite value of
at least 1, or +Inf), and never for every other pair; a provider is installed
whenever the exporter and the resource can be created. -/
theorem sampler_selection {X R : Type} (sdk : SDK X R) (cfg : JaegerConfig)
    (global : Option (TracerProvider X R)) :
    (∀ tp, (InitJaegerOTEL sdk cfg global).provider = some tp →
      (InitJaegerOTEL sdk cfg global).global = some tp ∧
      (tp.sampler = Sampler.AlwaysSample ↔
        cfg.SamplerType = "const" ∧
          (cfg.SamplerParam = Float64.posInf ∨
            ∃ q, cfg.SamplerParam = Float64.finite q ∧ 1 ≤ q)) ∧
      (¬(cfg.SamplerType = "const" ∧
          (cfg.SamplerParam = Float64.posInf ∨
            ∃ q, cfg.SamplerParam = Float64.finite q ∧ 1 ≤ q)) →
        tp.sampler = Sampler.NeverSample)) ∧
      (∀ x r, sdk.jaegerNew cfg.AgentHost cfg.AgentPort = Except.ok x →
        sdk.resourceNew [("service.name", cfg.ServiceName)] = Except.ok r →
        ∃ tp, (InitJaegerOTEL sdk cfg global).provider = some tp) := by
  constructor
  · intro tp htp
    unfold InitJaegerOTEL at htp ⊢
    cases hx : sdk.jaegerNew cfg.AgentHost cfg.AgentPort with
    | error e => simp [hx] at htp
    | ok x =>
      cases hr : sdk.resourceNew [("service.name", cfg.ServiceName)] with
      | error e => simp [hx, hr] at htp
      | ok r =>
        simp only [hx, hr, Option.some.injEq] at htp ⊢
        subst htp
        rw [← float64_ge_one]
        by_cases hc : cfg.SamplerType = "const" <;>
          cases hg : cfg.SamplerParam.ge (Float64.finite 1) <;> simp [hc, hg]
  · intro x r hx hr
    unfold InitJaegerOTEL
    simp [hx, hr]

/-- Witness for C8: with type "const" and parameter 1 the installed provider
samples always. -/
theorem sampler_selection_witness :
    ∃ tp, (InitJaegerOTEL exampleSDK exampleConfig none).provider = some tp ∧
      tp.sampler = Sampler.AlwaysSample := by
  obtain ⟨tp, htp⟩ := (sampler_selection exampleSDK exampleConfig none).2 _ _ rfl rfl
  exact ⟨tp, htp, ((sampler_selection exampleSDK exampleConfig none).1 tp htp).2.1.mpr
    ⟨rfl, Or.inr ⟨1, rfl, le_refl _⟩⟩⟩

/-- C10: when the exporter or the resource cannot be created, `InitJaegerOTEL`
returns the nil provider with the very error of the failed step and leaves
the global tracer provider as it was; it returns a provider with a nil error,
registered as the global one, exactly when both steps succeed. -/
theorem init_failures_are_reported {X R : Type} (sdk : SDK X R) (cfg : JaegerConfig)
    (global : Option (TracerProvider X R)) :
    (∀ e, sdk.jaegerNew cfg.AgentHost cfg.AgentPort = Except.error e →
      (InitJaegerOTEL sdk cfg global).provider = none ∧
        (InitJaegerOTEL sdk cfg global).err = some e ∧
        (InitJaegerOTEL sdk cfg global).global = global) ∧
      (∀ x e, sdk.jaegerNew cfg.AgentHost cfg.AgentPort = Except.ok x →
        sdk.resourceNew [("service.name", cfg.ServiceName)] = Except.error e →
        (InitJaegerOTEL sdk cfg global).provider = none ∧
          (InitJaegerOTEL sdk cfg global).err = some e ∧
          (InitJaegerOTEL sdk cfg global).global = global) ∧
      ((∃ tp, (InitJaegerOTEL sdk cfg global).provider = some tp ∧
          (InitJaegerOTEL sdk cfg global).err = none ∧
          (InitJaegerOTEL sdk cfg global).global = some tp) ↔
        ∃ x r, sdk.jaegerNew cfg.AgentHost cfg.AgentPort = Except.ok x ∧
          sdk.resourceNew [("service.name", cfg.ServiceName)] = Except.ok r) ∧
      ((InitJaegerOTEL sdk cfg global).provider = none ↔
        (InitJaegerOTEL sdk cfg global).err ≠ none) := by
  unfold InitJaegerOTEL
  cases hx : sdk.jaegerNew cfg.AgentHost cfg.AgentPort with
  | error e => simp
  | ok x =>
    cases hr : sdk.resourceNew [("service.name", cfg.ServiceName)] with
    | error e => simp
    | ok r => simp

/-- Witness for C10: an SDK whose exporter cannot be created. -/
theorem init_failures_are_reported_witness :
    (InitJaegerOTEL failingSDK exampleConfig none).provider = none ∧
      (InitJaegerOTEL failingSDK exampleConfig none).err = some "no such host" ∧
      (InitJaegerOTEL failingSDK exampleConfig none).global = none :=
  (init_failures_are_reported failingSDK exampleConfig none).1 "no such host" rfl

end Shared
